import Mathlib

/-!
Verification of the matching/classification core of the `whatever-find`
file-search library (`src/search/mod.rs`, `src/search/matcher.rs`,
`src/error.rs`) against its natural-language specification.

Modelling conventions (shallow embedding):
* Rust `&str` is modelled as `List Char` (`Str`), i.e. the sequence of
  Unicode scalar values.  Rust `str::len` counts UTF-8 bytes, modelled by
  `byte_len` via the UTF-8 encoded width of each scalar value.
* `f64` arithmetic is modelled over `ℚ` (all scores are built from exact
  decimal constants, integer casts, and the four arithmetic operations;
  no rounding-sensitive boundary is involved in any statement below).
  A division whose divisor is zero would produce NaN in `f64`; the
  `..._checked` variants of the scorer return `none` exactly at such a
  division, so "never NaN" is the statement that they always return `some`.
* `PathBuf` is modelled as the path string (`List Char`); Rust's `Ord` on
  `Path` compares the sequences of path components, modelled by `path_cmp`
  over `split_slash` (faithful for paths in normal form, i.e. without
  repeated separators or `.`/`..` components, which is what the indexer
  produces and what every concrete input below uses).
* Rust's `to_lowercase` is modelled as per-character ASCII lowercasing
  (`Char.toLower`); every statement about case folding below only involves
  characters on which ASCII and Unicode lowercasing agree.
* The `HashMap` index is modelled as the list of its entries in iteration
  order (`Index`); a different iteration order is a permutation of the list.
* `Vec::sort`/`sort_by` is Rust's stable sort; it is modelled by
  `List.insertionSort`, which is stable and sorts by the same comparator,
  hence produces the identical list for every total preorder comparator.
* The external `regex` and `glob` compilers are not part of this
  repository; they are modelled as explicit compiler parameters returning
  either an abstract error or a matching predicate on filenames.
-/

abbrev Str := List Char

abbrev FilePath' := Str

/-- UTF-8 encoded width in bytes of one Unicode scalar value. -/
def utf8_len (c : Char) : Nat :=
  if c.toNat < 0x80 then 1
  else if c.toNat < 0x800 then 2
  else if c.toNat < 0x10000 then 3
  else 4

/-- Rust `str::len`: the length of the string in UTF-8 bytes. -/
def byte_len (s : Str) : Nat := (s.map utf8_len).sum

/-- The `if case_sensitive { s } else { s.to_lowercase() }` pattern used
throughout `search/mod.rs` and `matcher.rs`. -/
def fold_case (case_sensitive : Bool) (s : Str) : Str :=
  if case_sensitive then s else s.map Char.toLower

/-- Whether `needle` is a prefix of `hay` (helper for `str_contains`). -/
def starts_with_str : Str → Str → Bool
  | _, [] => true
  | [], _ :: _ => false
  | h :: hs, n :: ns => h == n && starts_with_str hs ns

/-- Rust `str::contains(&str)`: substring occurrence.  On valid UTF-8,
byte-level occurrence coincides with scalar-value-level occurrence
(UTF-8 is self-synchronizing), so the `List Char` model is faithful. -/
def str_contains (hay needle : Str) : Bool :=
  match hay with
  | [] => needle.isEmpty
  | _ :: rest => starts_with_str hay needle || str_contains rest needle

/-! ### `SearchEngine::levenshtein_score` (src/search/mod.rs:301-338)

The rolling-row dynamic program is reproduced literally: `lev_row_go`
builds `curr_row[1..]` from the value to the left (`left`), the previous
row, and the remaining characters of `s2`; `lev_loop` runs one row per
character of `s1`; the distance is the last entry of the final row. -/

def lev_row_go (c1 : Char) : Nat → List Nat → List Char → List Nat
  | _, _, [] => []
  | left, p0 :: p1 :: ps, c :: cs =>
      let cost := if c1 = c then 0 else 1
      let v := min (min (left + 1) (p1 + 1)) (p0 + cost)
      v :: lev_row_go c1 v (p1 :: ps) cs
  | _, _, _ :: _ => []

def lev_loop (chars2 : List Char) : List Char → Nat → List Nat → List Nat
  | [], _, prev => prev
  | c :: cs, i, prev => lev_loop chars2 cs (i + 1) (i :: lev_row_go c i prev chars2)

def lev_distance (chars1 chars2 : List Char) : Nat :=
  (lev_loop chars2 chars1 1 (List.range (chars2.length + 1))).getLastD 0

def levenshtein_score (s1 s2 : Str) : ℚ :=
  let len1 := s1.length
  let len2 := s2.length
  if len1 = 0 then (if len2 = 0 then 1 else 0)
  else if len2 = 0 then 0
  else
    let distance := lev_distance s1 s2
    let max_len := max len1 len2
    if max_len = 0 then 1 else 1 - (distance : ℚ) / (max_len : ℚ)

/-! ### `SearchEngine::subsequence_score` (src/search/mod.rs:340-373) -/

structure SubseqState where
  query_idx : Nat
  consecutive : Nat
  max_consecutive : Nat
  score : ℚ
deriving DecidableEq

def subseq_step (query_chars : List Char) (st : SubseqState) (ch : Char) : SubseqState :=
  match query_chars[st.query_idx]? with
  | some qc =>
      if ch = qc then
        { query_idx := st.query_idx + 1
          consecutive := st.consecutive + 1
          max_consecutive := max st.max_consecutive (st.consecutive + 1)
          score := st.score + (1 + ((st.consecutive + 1 : Nat) : ℚ) * 0.1) }
      else { st with consecutive := 0 }
  | none => { st with consecutive := 0 }

def subsequence_score (filename query : Str) : ℚ :=
  if query.isEmpty then 1
  else
    let st := filename.foldl (subseq_step query) ⟨0, 0, 0, 0⟩
    if st.query_idx = query.length then
      let coverage := st.score / (filename.length : ℚ)
      let completeness := (st.query_idx : ℚ) / (query.length : ℚ)
      let consecutiveness := (st.max_consecutive : ℚ) / (query.length : ℚ)
      coverage * 0.4 + completeness * 0.4 + consecutiveness * 0.2
    else 0

/-! ### `SearchEngine::ngram_score` / `get_ngrams` (src/search/mod.rs:375-409) -/

def get_ngrams (s : Str) (n : Nat) : List Str :=
  if s.length < n then [s]
  else (List.range (s.length - n + 1)).map (fun i => (s.drop i).take n)

def ngram_score (s1 s2 : Str) : ℚ :=
  let ngrams1 := get_ngrams s1 2
  let ngrams2 := get_ngrams s2 2
  if ngrams1 = [] ∧ ngrams2 = [] then 1
  else if ngrams1 = [] ∨ ngrams2 = [] then 0
  else
    let common := ngrams1.countP (fun g => ngrams2.contains g)
    let total := max ngrams1.length ngrams2.length
    (common : ℚ) / (total : ℚ)

/-! ### `SearchEngine::calculate_fuzzy_score` (src/search/mod.rs:258-299) -/

def calculate_fuzzy_score (case_sensitive : Bool) (filename query : Str) : ℚ :=
  let filename_lower := fold_case case_sensitive filename
  let query_lower := fold_case case_sensitive query
  if filename_lower = query_lower then 1
  else if str_contains filename_lower query_lower then
    0.9 - ((byte_len filename_lower : ℚ) - (byte_len query_lower : ℚ))
        / (byte_len filename_lower : ℚ) * 0.1
  else
    let lev := levenshtein_score filename_lower query_lower
    let sub := subsequence_score filename_lower query_lower
    let ngr := ngram_score filename_lower query_lower
    let combined_score := lev * 0.4 + sub * 0.4 + ngr * 0.2
    if combined_score < 0.3 then 0 else combined_score

/-! ### NaN-tracking variants of the scorer

In `f64`, the only operation in the scorer that can produce NaN is a
division with zero divisor (all inputs are finite and bounded).  The
`..._checked` variants return `none` exactly where such a division would
occur, and mirror the branch structure of the originals otherwise. -/

def div_checked (a b : ℚ) : Option ℚ :=
  if b = 0 then none else some (a / b)

def levenshtein_score_checked (s1 s2 : Str) : Option ℚ :=
  let len1 := s1.length
  let len2 := s2.length
  if len1 = 0 then some (if len2 = 0 then 1 else 0)
  else if len2 = 0 then some 0
  else
    let distance := lev_distance s1 s2
    let max_len := max len1 len2
    if max_len = 0 then some 1
    else (div_checked (distance : ℚ) (max_len : ℚ)).map (fun x => 1 - x)

def subsequence_score_checked (filename query : Str) : Option ℚ :=
  if query.isEmpty then some 1
  else
    let st := filename.foldl (subseq_step query) ⟨0, 0, 0, 0⟩
    if st.query_idx = query.length then
      match div_checked st.score (filename.length : ℚ),
            div_checked (st.query_idx : ℚ) (query.length : ℚ),
            div_checked (st.max_consecutive : ℚ) (query.length : ℚ) with
      | some coverage, some completeness, some consecutiveness =>
          some (coverage * 0.4 + completeness * 0.4 + consecutiveness * 0.2)
      | _, _, _ => none
    else some 0

def ngram_score_checked (s1 s2 : Str) : Option ℚ :=
  let ngrams1 := get_ngrams s1 2
  let ngrams2 := get_ngrams s2 2
  if ngrams1 = [] ∧ ngrams2 = [] then some 1
  else if ngrams1 = [] ∨ ngrams2 = [] then some 0
  else
    let common := ngrams1.countP (fun g => ngrams2.contains g)
    let total := max ngrams1.length ngrams2.length
    div_checked (common : ℚ) (total : ℚ)

def calculate_fuzzy_score_checked (case_sensitive : Bool) (filename query : Str) :
    Option ℚ :=
  let filename_lower := fold_case case_sensitive filename
  let query_lower := fold_case case_sensitive query
  if filename_lower = query_lower then some 1
  else if str_contains filename_lower query_lower then
    (div_checked ((byte_len filename_lower : ℚ) - (byte_len query_lower : ℚ))
        (byte_len filename_lower : ℚ)).map (fun x => 0.9 - x * 0.1)
  else
    match levenshtein_score_checked filename_lower query_lower,
          subsequence_score_checked filename_lower query_lower,
          ngram_score_checked filename_lower query_lower with
    | some lev, some sub, some ngr =>
        let combined_score := lev * 0.4 + sub * 0.4 + ngr * 0.2
        some (if combined_score < 0.3 then 0 else combined_score)
    | _, _, _ => none

/-! ### The ordering of `PathBuf`

Rust's `Ord` for `Path`/`PathBuf` compares the sequences of path
components lexicographically, each component compared bytewise (which on
valid UTF-8 equals comparison by Unicode scalar values).  `split_slash`
recovers the components of a path in normal form; `lex_cmp` is
lexicographic comparison from an element comparator. -/

def lex_cmp (cmp : α → α → Ordering) : List α → List α → Ordering
  | [], [] => .eq
  | [], _ :: _ => .lt
  | _ :: _, [] => .gt
  | a :: as, b :: bs =>
      match cmp a b with
      | .lt => .lt
      | .gt => .gt
      | .eq => lex_cmp cmp as bs

def char_cmp (c d : Char) : Ordering :=
  if c < d then .lt else if d < c then .gt else .eq

def split_slash : Str → List Str
  | [] => [[]]
  | c :: cs =>
      if c = '/' then [] :: split_slash cs
      else
        match split_slash cs with
        | [] => [[c]]
        | w :: ws => (c :: w) :: ws

def path_cmp (s t : FilePath') : Ordering :=
  lex_cmp (lex_cmp char_cmp) (split_slash s) (split_slash t)

def path_le (s t : FilePath') : Prop := path_cmp s t ≠ .gt

instance : DecidableRel path_le := fun s t =>
  inferInstanceAs (Decidable (path_cmp s t ≠ .gt))

/-! ### The search functions of `SearchEngine` (src/search/mod.rs:166-256)

`Index` is the `HashMap<String, Vec<PathBuf>>` in iteration order.
`collect_paths` is the `for (filename, paths) in index { .. results.extend(..) }`
loop; `sort_paths` is `results.sort()` (a stable sort under `PathBuf`
ordering); `collect_fuzzy` is the scoring loop of `search_fuzzy` and its
`sort_by(|a, b| b.1.partial_cmp(&a.1).unwrap())` is the stable sort under
descending score, `score_ge`. -/

abbrev Index := List (Str × List FilePath')

def collect_paths (match_fn : Str → Bool) : Index → List FilePath'
  | [] => []
  | e :: rest => (if match_fn e.1 then e.2 else []) ++ collect_paths match_fn rest

def sort_paths (l : List FilePath') : List FilePath' :=
  List.insertionSort path_le l

def search_substring (case_sensitive : Bool) (index : Index) (query : Str) :
    List FilePath' :=
  let search_query := fold_case case_sensitive query
  sort_paths (collect_paths
    (fun filename => str_contains (fold_case case_sensitive filename) search_query) index)

/-- Abstract diagnostic of the external `regex` crate. -/
structure RegexError where
  msg : Str
deriving DecidableEq

/-- Abstract diagnostic of the external `glob` crate. -/
structure GlobError where
  msg : Str
deriving DecidableEq

/-- The two variants of `FileSearchError` (src/error.rs:18-31) reachable
from the modelled search operations. -/
inductive FileSearchError where
  | invalidRegex (source : RegexError) (pattern : Str)
  | invalidGlob (source : GlobError) (pattern : Str)
deriving DecidableEq

/-- `impl From<regex::Error> for FileSearchError` (src/error.rs:201-205). -/
def from_regex_error (err : RegexError) : FileSearchError :=
  .invalidRegex err ("<unknown pattern>".toList)

/-- `impl From<glob::PatternError> for FileSearchError` (src/error.rs:207-211). -/
def from_glob_error (err : GlobError) : FileSearchError :=
  .invalidGlob err ("<unknown pattern>".toList)

/-- The external regex compiler: a pattern either fails to compile or
yields a matching predicate on filenames. -/
abbrev RegexCompiler := Str → Except RegexError (Str → Bool)

/-- The external glob compiler. -/
abbrev GlobCompiler := Str → Except GlobError (Str → Bool)

def search_regex (compile : RegexCompiler) (case_sensitive : Bool)
    (index : Index) (pattern : Str) : Except FileSearchError (List FilePath') :=
  let flags : Str := if case_sensitive then [] else ("(?i)".toList)
  match compile (flags ++ pattern) with
  | .error e => .error (from_regex_error e)
  | .ok is_match => .ok (sort_paths (collect_paths is_match index))

def search_glob (compile : GlobCompiler) (case_sensitive : Bool)
    (index : Index) (pattern : Str) : Except FileSearchError (List FilePath') :=
  match compile (if case_sensitive then pattern else fold_case false pattern) with
  | .error e => .error (from_glob_error e)
  | .ok glob_matches =>
      .ok (sort_paths (collect_paths
        (fun filename =>
          if case_sensitive then glob_matches filename
          else glob_matches (fold_case false filename)) index))

def score_ge (a b : FilePath' × ℚ) : Prop := b.2 ≤ a.2

instance : DecidableRel score_ge := fun a b =>
  inferInstanceAs (Decidable (b.2 ≤ a.2))

instance : IsTotal (FilePath' × ℚ) score_ge :=
  ⟨fun a b => (le_total b.2 a.2).imp id id⟩

instance : IsTrans (FilePath' × ℚ) score_ge :=
  ⟨fun _ _ _ h1 h2 => le_trans h2 h1⟩

def collect_fuzzy (case_sensitive : Bool) (query : Str) : Index → List (FilePath' × ℚ)
  | [] => []
  | e :: rest =>
      let score := calculate_fuzzy_score case_sensitive e.1 query
      (if 0 < score then e.2.map (fun p => (p, score)) else [])
        ++ collect_fuzzy case_sensitive query rest

def search_fuzzy (case_sensitive : Bool) (index : Index) (query : Str) :
    List (FilePath' × ℚ) :=
  List.insertionSort score_ge (collect_fuzzy case_sensitive query index)

/-! ### `Matcher` (src/search/matcher.rs:1-135)

The compiled regex of a `Matcher` is modelled as an optional matching
predicate, exactly as stored in the `compiled_regex: Option<Regex>` field. -/

inductive MatchType where
  | exact
  | substring
  | regex
  | fuzzy

structure Matcher where
  match_type : MatchType
  case_sensitive : Bool
  compiled_regex : Option (Str → Bool)

def Matcher.new (match_type : MatchType) (case_sensitive : Bool) : Matcher :=
  { match_type, case_sensitive, compiled_regex := none }

def Matcher.exact_match (m : Matcher) (filename query : Str) : Bool :=
  if m.case_sensitive then filename == query
  else fold_case false filename == fold_case false query

def Matcher.substring_match (m : Matcher) (filename query : Str) : Bool :=
  if m.case_sensitive then str_contains filename query
  else str_contains (fold_case false filename) (fold_case false query)

def Matcher.regex_match (m : Matcher) (filename : Str) : Bool :=
  match m.compiled_regex with
  | some regex => regex filename
  | none => false

structure MatcherSubseqState where
  query_idx : Nat
  consecutive : Nat
  score : ℚ

def matcher_subseq_step (query_chars : List Char) (st : MatcherSubseqState)
    (ch : Char) : MatcherSubseqState :=
  match query_chars[st.query_idx]? with
  | some qc =>
      if ch = qc then
        { query_idx := st.query_idx + 1
          consecutive := st.consecutive + 1
          score := st.score + (0.1 + ((st.consecutive + 1 : Nat) : ℚ) * 0.05) }
      else { st with consecutive := 0 }
  | none => { st with consecutive := 0 }

def Matcher.fuzzy_match (m : Matcher) (filename query : Str) : ℚ :=
  let filename := fold_case m.case_sensitive filename
  let query := fold_case m.case_sensitive query
  if filename = query then 1
  else if str_contains filename query then 0.8
  else
    let st := filename.foldl (matcher_subseq_step query) ⟨0, 0, 0⟩
    if st.query_idx = query.length then st.score / (filename.length : ℚ)
    else 0

def Matcher.matches (m : Matcher) (filename query : Str) : Bool :=
  match m.match_type with
  | .exact => m.exact_match filename query
  | .substring => m.substring_match filename query
  | .regex => m.regex_match filename
  | .fuzzy => decide (0 < m.fuzzy_match filename query)

/-! ### `matches_path_pattern` (src/search/matcher.rs:138-149)

`file_name` models `path.file_name().and_then(|n| n.to_str())` (`none`
when the path has no filename or it is not valid UTF-8); `glob_new`
models `glob::Pattern::new` as a fallible external compiler. -/

def matches_path_pattern (glob_new : Str → Option (Str → Bool))
    (file_name : Option Str) (pattern : Str) : Bool :=
  match file_name with
  | some filename =>
      match (if pattern.contains '*' || pattern.contains '?'
             then glob_new pattern else none) with
      | some glob => glob filename
      | none => str_contains filename pattern
  | none => false

/-! ### `SearchEngine::detect_search_mode` / `looks_like_regex` /
`looks_like_glob` (src/search/mod.rs:36-126)

Rust `query.len()` is the byte length and `query[1..]` byte-slices the
string, which panics when byte 1 is not a character boundary, i.e. when
the first character is not one UTF-8 byte wide.  A panic is modelled as
`none`. -/

inductive SearchMode where
  | substring
  | glob
  | regex
  | fuzzy
deriving DecidableEq

def looks_like_regex (query : Str) : Option Bool :=
  if query.contains '\\' &&
      (str_contains query ("\\d".toList) || str_contains query ("\\w".toList) ||
       str_contains query ("\\s".toList) || str_contains query ("\\.".toList) ||
       str_contains query ("\\^".toList) || str_contains query ("\\$".toList)) then
    some true
  else if query.head? == some '^' || query.getLast? == some '$' then
    some true
  else if query.contains '[' && query.contains ']' then
    some true
  else if query.contains '{' && query.contains '}' &&
      query.any (fun c => c.isDigit) then
    some true
  else if query.contains '|' then
    some true
  else if query.contains '(' && query.contains ')' then
    some true
  else if 1 < byte_len query then
    match query with
    | [] => none
    | c :: rest => if utf8_len c = 1 then some (rest.contains '+') else none
  else
    some false

def looks_like_glob (query : Str) : Option Bool :=
  if !(query.contains '*') && !(query.contains '?') then some false
  else
    match looks_like_regex query with
    | none => none
    | some true => some false
    | some false =>
        let has_glob_chars := query.contains '*' || query.contains '?'
        let has_complex_regex := query.contains '[' || query.contains '(' ||
          query.contains '\\' || query.contains '|'
        some (has_glob_chars && !has_complex_regex)

def detect_search_mode (query : Str) : Option SearchMode :=
  match looks_like_regex query with
  | none => none
  | some true => some .regex
  | some false =>
      match looks_like_glob query with
      | none => none
      | some true => some .glob
      | some false => some .substring

/-! ### Definitions taken from the specification text (for refinement
claims; everything above is translated from the source) -/

/-- Modelled from the spec (§4.3 rule 3): the substring-branch score with
lengths counted in Unicode scalar values (codepoints), not bytes. -/
def substring_score_spec (filename query : Str) : ℚ :=
  0.9 - ((filename.length : ℚ) - (query.length : ℚ)) / (filename.length : ℚ) * 0.1

/-- Modelled from the spec (§4.2): a total lexicographic ordering over the
path strings themselves (bytewise, which on valid UTF-8 equals scalar-value
order). -/
def string_lex_le_spec (s t : Str) : Prop := lex_cmp char_cmp s t ≠ .gt

instance : DecidableRel string_lex_le_spec := fun s t =>
  inferInstanceAs (Decidable (lex_cmp char_cmp s t ≠ .gt))

/-! ### Order-theoretic facts about the path comparator -/

theorem lex_cmp_nil_nil {α : Type} (cmp : α → α → Ordering) :
    lex_cmp cmp [] [] = .eq := rfl

theorem lex_cmp_nil_cons {α : Type} (cmp : α → α → Ordering) (b : α) (bs : List α) :
    lex_cmp cmp [] (b :: bs) = .lt := rfl

theorem lex_cmp_cons_nil {α : Type} (cmp : α → α → Ordering) (a : α) (as : List α) :
    lex_cmp cmp (a :: as) [] = .gt := rfl

theorem lex_cmp_cons_lt {α : Type} {cmp : α → α → Ordering} {a b : α}
    (as bs : List α) (h : cmp a b = .lt) :
    lex_cmp cmp (a :: as) (b :: bs) = .lt := by
  simp [lex_cmp, h]

theorem lex_cmp_cons_gt {α : Type} {cmp : α → α → Ordering} {a b : α}
    (as bs : List α) (h : cmp a b = .gt) :
    lex_cmp cmp (a :: as) (b :: bs) = .gt := by
  simp [lex_cmp, h]

theorem lex_cmp_cons_eq {α : Type} {cmp : α → α → Ordering} {a b : α}
    (as bs : List α) (h : cmp a b = .eq) :
    lex_cmp cmp (a :: as) (b :: bs) = lex_cmp cmp as bs := by
  simp [lex_cmp, h]

theorem char_cmp_eq_iff (a b : Char) : char_cmp a b = .eq ↔ a = b := by
  unfold char_cmp
  split_ifs with h1 h2
  · exact iff_of_false (by decide) (fun he => absurd (he ▸ h1) (lt_irrefl b))
  · exact iff_of_false (by decide) (fun he => absurd (he ▸ h2) (lt_irrefl b))
  · exact iff_of_true rfl (le_antisymm (not_lt.mp h2) (not_lt.mp h1))

theorem char_cmp_lt_iff (a b : Char) : char_cmp a b = .lt ↔ a < b := by
  unfold char_cmp
  split_ifs with h1 h2
  · exact iff_of_true rfl h1
  · exact iff_of_false (by decide) h1
  · exact iff_of_false (by decide) h1

theorem char_cmp_swap (a b : Char) : (char_cmp a b).swap = char_cmp b a := by
  rcases lt_trichotomy a b with h | h | h
  · simp [char_cmp, h, asymm h, Ordering.swap]
  · subst h
    simp [char_cmp, lt_irrefl, Ordering.swap]
  · simp [char_cmp, h, asymm h, Ordering.swap]

theorem char_cmp_lt_trans (a b c : Char) (h1 : char_cmp a b = .lt)
    (h2 : char_cmp b c = .lt) : char_cmp a c = .lt :=
  (char_cmp_lt_iff a c).mpr
    (lt_trans ((char_cmp_lt_iff a b).mp h1) ((char_cmp_lt_iff b c).mp h2))

theorem lex_cmp_eq_iff {α : Type} {cmp : α → α → Ordering}
    (hcmp : ∀ a b, cmp a b = .eq ↔ a = b) :
    ∀ x y : List α, lex_cmp cmp x y = .eq ↔ x = y := by
  intro x
  induction x with
  | nil => intro y; cases y <;> simp [lex_cmp]
  | cons a as ih =>
      intro y
      cases y with
      | nil => simp [lex_cmp]
      | cons b bs =>
          cases h : cmp a b with
          | lt =>
              rw [lex_cmp_cons_lt as bs h]
              refine iff_of_false (by decide) (fun he => ?_)
              injection he with h1 _
              exact absurd (((hcmp a b).mpr h1).symm.trans h) (by decide)
          | gt =>
              rw [lex_cmp_cons_gt as bs h]
              refine iff_of_false (by decide) (fun he => ?_)
              injection he with h1 _
              exact absurd (((hcmp a b).mpr h1).symm.trans h) (by decide)
          | eq =>
              rw [lex_cmp_cons_eq as bs h, ih bs]
              have hab : a = b := (hcmp a b).mp h
              subst hab
              simp

theorem lex_cmp_swap {α : Type} {cmp : α → α → Ordering}
    (hcmp : ∀ a b, (cmp a b).swap = cmp b a) :
    ∀ x y : List α, (lex_cmp cmp x y).swap = lex_cmp cmp y x := by
  intro x
  induction x with
  | nil => intro y; cases y <;> rfl
  | cons a as ih =>
      intro y
      cases y with
      | nil => rfl
      | cons b bs =>
          cases h : cmp a b with
          | lt =>
              rw [lex_cmp_cons_lt as bs h,
                lex_cmp_cons_gt bs as (by rw [← hcmp a b, h]; rfl)]
              rfl
          | gt =>
              rw [lex_cmp_cons_gt as bs h,
                lex_cmp_cons_lt bs as (by rw [← hcmp a b, h]; rfl)]
              rfl
          | eq =>
              rw [lex_cmp_cons_eq as bs h,
                lex_cmp_cons_eq bs as (by rw [← hcmp a b, h]; rfl)]
              exact ih bs

theorem lex_cmp_lt_trans {α : Type} {cmp : α → α → Ordering}
    (hcmp : ∀ a b, cmp a b = .eq ↔ a = b)
    (htr : ∀ a b c, cmp a b = .lt → cmp b c = .lt → cmp a c = .lt) :
    ∀ x y z : List α, lex_cmp cmp x y = .lt → lex_cmp cmp y z = .lt →
      lex_cmp cmp x z = .lt := by
  intro x
  induction x with
  | nil =>
      intro y z hxy hyz
      cases y with
      | nil => exact hyz
      | cons b bs =>
          cases z with
          | nil => rw [lex_cmp_cons_nil] at hyz; exact absurd hyz (by decide)
          | cons c cs => rfl
  | cons a as ih =>
      intro y z hxy hyz
      cases y with
      | nil => rw [lex_cmp_cons_nil] at hxy; exact absurd hxy (by decide)
      | cons b bs =>
          cases z with
          | nil => rw [lex_cmp_cons_nil] at hyz; exact absurd hyz (by decide)
          | cons c cs =>
              cases hab : cmp a b with
              | gt =>
                  rw [lex_cmp_cons_gt as bs hab] at hxy
                  exact absurd hxy (by decide)
              | lt =>
                  cases hbc : cmp b c with
                  | gt =>
                      rw [lex_cmp_cons_gt bs cs hbc] at hyz
                      exact absurd hyz (by decide)
                  | lt => exact lex_cmp_cons_lt as cs (htr a b c hab hbc)
                  | eq =>
                      have hb : b = c := (hcmp b c).mp hbc
                      subst hb
                      exact lex_cmp_cons_lt as cs hab
              | eq =>
                  have hb : a = b := (hcmp a b).mp hab
                  subst hb
                  rw [lex_cmp_cons_eq as bs hab] at hxy
                  cases hbc : cmp a c with
                  | lt => exact lex_cmp_cons_lt as cs hbc
                  | gt =>
                      rw [lex_cmp_cons_gt bs cs hbc] at hyz
                      exact absurd hyz (by decide)
                  | eq =>
                      rw [lex_cmp_cons_eq bs cs hbc] at hyz
                      exact (lex_cmp_cons_eq as cs hbc).trans (ih bs cs hxy hyz)

/-- Inverse of `split_slash`: rejoin components with `'/'`. -/
def join_slash : List Str → Str
  | [] => []
  | [w] => w
  | w :: ws => w ++ '/' :: join_slash ws

theorem split_slash_ne_nil : ∀ s : Str, split_slash s ≠ [] := by
  intro s
  cases s with
  | nil => simp [split_slash]
  | cons c cs =>
      simp only [split_slash]
      split_ifs
      · simp
      · cases h : split_slash cs <;> simp

theorem join_slash_split_slash : ∀ s : Str, join_slash (split_slash s) = s := by
  intro s
  induction s with
  | nil => rfl
  | cons c cs ih =>
      simp only [split_slash]
      split_ifs with hc
      · subst hc
        obtain ⟨w, ws, hw⟩ : ∃ w ws, split_slash cs = w :: ws := by
          cases h : split_slash cs with
          | nil => exact absurd h (split_slash_ne_nil cs)
          | cons w ws => exact ⟨w, ws, rfl⟩
        rw [hw]
        rw [hw] at ih
        show join_slash ([] :: w :: ws) = '/' :: cs
        show ([] : Str) ++ '/' :: join_slash (w :: ws) = '/' :: cs
        rw [List.nil_append, ih]
      · obtain ⟨w, ws, hw⟩ : ∃ w ws, split_slash cs = w :: ws := by
          cases h : split_slash cs with
          | nil => exact absurd h (split_slash_ne_nil cs)
          | cons w ws => exact ⟨w, ws, rfl⟩
        rw [hw]
        rw [hw] at ih
        cases ws with
        | nil => exact congrArg (List.cons c) ih
        | cons v vs => exact congrArg (List.cons c) ih

theorem split_slash_injective {s t : Str} (h : split_slash s = split_slash t) :
    s = t := by
  have := congrArg join_slash h
  rwa [join_slash_split_slash, join_slash_split_slash] at this

theorem word_cmp_eq_iff (w v : Str) : lex_cmp char_cmp w v = .eq ↔ w = v :=
  lex_cmp_eq_iff char_cmp_eq_iff w v

theorem path_cmp_eq_iff (s t : FilePath') : path_cmp s t = .eq ↔ s = t := by
  unfold path_cmp
  rw [lex_cmp_eq_iff word_cmp_eq_iff]
  exact ⟨split_slash_injective, fun h => h ▸ rfl⟩

theorem path_cmp_swap (s t : FilePath') : (path_cmp s t).swap = path_cmp t s :=
  lex_cmp_swap (lex_cmp_swap char_cmp_swap) (split_slash s) (split_slash t)

theorem path_le_iff (s t : FilePath') :
    path_le s t ↔ path_cmp s t = .lt ∨ s = t := by
  unfold path_le
  cases h : path_cmp s t with
  | lt => simp
  | eq => simpa using (path_cmp_eq_iff s t).mp h
  | gt =>
      simp only [ne_eq, not_true_eq_false, false_iff, not_or]
      refine ⟨by simp, fun he => ?_⟩
      rw [he, (path_cmp_eq_iff t t).mpr rfl] at h
      cases h

instance : IsTotal FilePath' path_le := by
  refine ⟨fun a b => ?_⟩
  cases h : path_cmp a b with
  | lt => exact Or.inl (by unfold path_le; rw [h]; decide)
  | eq => exact Or.inl (by unfold path_le; rw [h]; decide)
  | gt =>
      refine Or.inr ?_
      unfold path_le
      rw [← path_cmp_swap a b, h]
      decide

instance : IsTrans FilePath' path_le := by
  refine ⟨fun a b c hab hbc => ?_⟩
  rw [path_le_iff] at hab hbc ⊢
  rcases hab with hab | hab
  · rcases hbc with hbc | hbc
    · exact Or.inl (lex_cmp_lt_trans word_cmp_eq_iff
        (fun x y z => lex_cmp_lt_trans char_cmp_eq_iff char_cmp_lt_trans x y z)
        (split_slash a) (split_slash b) (split_slash c) hab hbc)
    · subst hbc; exact Or.inl hab
  · subst hab
    exact hbc

instance : IsAntisymm FilePath' path_le := by
  refine ⟨fun a b hab hba => ?_⟩
  rcases (path_le_iff a b).mp hab with h | h
  · exact absurd (show path_cmp b a = Ordering.gt by
      rw [← path_cmp_swap a b, h]; rfl) hba
  · exact h

/-! ### Behaviour of the collection and sorting steps -/

theorem sort_paths_sorted (l : List FilePath') : (sort_paths l).Sorted path_le :=
  List.sorted_insertionSort path_le l

theorem sort_paths_perm (l : List FilePath') : (sort_paths l).Perm l :=
  List.perm_insertionSort path_le l

theorem sort_paths_eq_of_perm {l l' : List FilePath'} (h : l.Perm l') :
    sort_paths l = sort_paths l' :=
  List.eq_of_perm_of_sorted
    ((sort_paths_perm l).trans (h.trans (sort_paths_perm l').symm))
    (sort_paths_sorted l) (sort_paths_sorted l')

theorem collect_paths_perm (f : Str → Bool) {idx idx' : Index}
    (h : idx.Perm idx') : (collect_paths f idx).Perm (collect_paths f idx') := by
  induction h with
  | nil => rfl
  | cons x h ih => exact List.Perm.append_left _ ih
  | swap x y l =>
      show ((if f y.1 then y.2 else []) ++ ((if f x.1 then x.2 else []) ++ _)).Perm
        ((if f x.1 then x.2 else []) ++ ((if f y.1 then y.2 else []) ++ _))
      rw [← List.append_assoc, ← List.append_assoc]
      exact List.Perm.append_right _ List.perm_append_comm
  | trans _ _ ih1 ih2 => exact ih1.trans ih2

theorem mem_collect_paths (f : Str → Bool) (idx : Index) (p : FilePath') :
    p ∈ collect_paths f idx ↔ ∃ e ∈ idx, f e.1 = true ∧ p ∈ e.2 := by
  induction idx with
  | nil => simp [collect_paths]
  | cons e rest ih =>
      simp only [collect_paths, List.mem_append, ih, List.mem_cons]
      by_cases hf : f e.1 = true
      · simp only [hf, if_true]
        constructor
        · rintro (hp | ⟨x, hx, hfx, hpx⟩)
          · exact ⟨e, Or.inl rfl, hf, hp⟩
          · exact ⟨x, Or.inr hx, hfx, hpx⟩
        · rintro ⟨x, hx | hx, hfx, hpx⟩
          · subst hx; exact Or.inl hpx
          · exact Or.inr ⟨x, hx, hfx, hpx⟩
      · simp only [hf, if_false]
        constructor
        · rintro (hp | ⟨x, hx, hfx, hpx⟩)
          · simp at hp
          · exact ⟨x, Or.inr hx, hfx, hpx⟩
        · rintro ⟨x, hx | hx, hfx, hpx⟩
          · subst hx; exact absurd hfx hf
          · exact Or.inr ⟨x, hx, hfx, hpx⟩

theorem collect_fuzzy_perm (case_sensitive : Bool) (query : Str) {idx idx' : Index}
    (h : idx.Perm idx') :
    (collect_fuzzy case_sensitive query idx).Perm
      (collect_fuzzy case_sensitive query idx') := by
  induction h with
  | nil => rfl
  | cons x h ih => exact List.Perm.append_left _ ih
  | swap x y l =>
      show List.Perm (_ ++ (_ ++ _)) (_ ++ (_ ++ _))
      rw [← List.append_assoc, ← List.append_assoc]
      exact List.Perm.append_right _ List.perm_append_comm
  | trans _ _ ih1 ih2 => exact ih1.trans ih2

theorem pos_of_mem_collect_fuzzy (case_sensitive : Bool) (query : Str)
    (idx : Index) (e : FilePath' × ℚ)
    (he : e ∈ collect_fuzzy case_sensitive query idx) : 0 < e.2 := by
  induction idx with
  | nil => simp [collect_fuzzy] at he
  | cons x rest ih =>
      simp only [collect_fuzzy, List.mem_append] at he
      rcases he with he | he
      · split_ifs at he with hs
        · obtain ⟨p, _, hp⟩ := List.mem_map.mp he
          rw [← hp]
          exact hs
        · simp at he
      · exact ih he

theorem search_fuzzy_sorted (case_sensitive : Bool) (index : Index) (query : Str) :
    (search_fuzzy case_sensitive index query).Sorted score_ge :=
  List.sorted_insertionSort score_ge _

theorem search_fuzzy_perm_collect (case_sensitive : Bool) (index : Index)
    (query : Str) :
    (search_fuzzy case_sensitive index query).Perm
      (collect_fuzzy case_sensitive query index) :=
  List.perm_insertionSort score_ge _

/-! ### The checked scorer never reaches a zero divisor -/

theorem utf8_len_pos (c : Char) : 0 < utf8_len c := by
  unfold utf8_len
  split_ifs <;> norm_num

theorem byte_len_pos {s : Str} (h : s ≠ []) : 0 < byte_len s := by
  cases s with
  | nil => exact absurd rfl h
  | cons c cs =>
      unfold byte_len
      rw [List.map_cons, List.sum_cons]
      have := utf8_len_pos c
      omega

theorem levenshtein_score_checked_eq (s1 s2 : Str) :
    levenshtein_score_checked s1 s2 = some (levenshtein_score s1 s2) := by
  simp only [levenshtein_score_checked, levenshtein_score]
  split_ifs with h1 h2 h3
  · rfl
  · rfl
  · rfl
  · rfl
  · have hmn : max s1.length s2.length ≠ 0 :=
      fun h => h1 (Nat.max_eq_zero_iff.mp h).1
    have hm : ((max s1.length s2.length : Nat) : ℚ) ≠ 0 := Nat.cast_ne_zero.mpr hmn
    unfold div_checked
    rw [if_neg hm]
    rfl

theorem subsequence_score_checked_eq (filename query : Str) :
    subsequence_score_checked filename query = some (subsequence_score filename query) := by
  simp only [subsequence_score_checked, subsequence_score]
  split_ifs with hq hidx
  · rfl
  · have hfne : filename ≠ [] := by
      intro hf
      subst hf
      simp only [List.foldl_nil] at hidx
      have h0 : query.length = 0 := hidx.symm
      rw [List.length_eq_zero] at h0
      subst h0
      exact hq rfl
    have hfl : ((filename.length : Nat) : ℚ) ≠ 0 :=
      Nat.cast_ne_zero.mpr (fun h0 => hfne (List.length_eq_zero.mp h0))
    have hql : ((query.length : Nat) : ℚ) ≠ 0 :=
      Nat.cast_ne_zero.mpr (fun h0 => hq (by rw [List.length_eq_zero.mp h0]; rfl))
    simp [div_checked, hfl, hql]
  · rfl

theorem get_ngrams_ne_nil (s : Str) (n : Nat) : get_ngrams s n ≠ [] := by
  unfold get_ngrams
  split_ifs with h
  · simp
  · simp only [ne_eq, List.map_eq_nil_iff, List.range_eq_nil]
    omega

theorem ngram_score_checked_eq (s1 s2 : Str) :
    ngram_score_checked s1 s2 = some (ngram_score s1 s2) := by
  simp only [ngram_score_checked, ngram_score]
  split_ifs with h1 h2
  · rfl
  · rfl
  · have hp : 0 < (get_ngrams s1 2).length :=
      List.length_pos.mpr (get_ngrams_ne_nil s1 2)
    have hm : ((max (get_ngrams s1 2).length (get_ngrams s2 2).length : Nat) : ℚ) ≠ 0 := by
      refine Nat.cast_ne_zero.mpr ?_
      omega
    unfold div_checked
    rw [if_neg hm]

/-! ### Claims -/

/-- C9: a `Matcher` built by `Matcher::new(MatchType::Regex, case_sensitive)`
has no compiled pattern, and its `matches` returns `false` for every filename
and query, silently matching nothing rather than erroring. -/
theorem c9_unconfigured_regex_matcher_matches_nothing
    (case_sensitive : Bool) (filename query : Str) :
    (Matcher.new .regex case_sensitive).matches filename query = false := rfl

/-- C10: `matches_path_pattern` is total and reports no error: when the path
has a UTF-8 filename and the pattern contains a wildcard but fails to compile
as a glob, the result silently falls back to substring containment of the
pattern text in the filename; when the path has no UTF-8 filename the result
is `false`. -/
theorem c10_glob_fallback (glob_new : Str → Option (Str → Bool))
    (file_name : Option Str) (pattern : Str) :
    (file_name = none → matches_path_pattern glob_new file_name pattern = false) ∧
    (∀ f, file_name = some f →
      (pattern.contains '*' || pattern.contains '?') = true →
      glob_new pattern = none →
      matches_path_pattern glob_new file_name pattern = str_contains f pattern) := by
  constructor
  · rintro rfl
    rfl
  · rintro f rfl hwild hnone
    simp [matches_path_pattern, hwild, hnone]

theorem c10_witness :
    matches_path_pattern (fun _ => none) (some ['m','a','i','n','.','r','s'])
        ['a','*','['] =
      str_contains ['m','a','i','n','.','r','s'] ['a','*','['] :=
  (c10_glob_fallback (fun _ => none) (some ['m','a','i','n','.','r','s'])
    ['a','*','[']).2 ['m','a','i','n','.','r','s'] rfl (by decide) rfl

/-- C2 (code bug): the pattern classifier is not total.  For the query
consisting of the single character 'é' (two UTF-8 bytes, so `query.len() > 1`)
the expression `query[1..]` in `looks_like_regex` byte-slices inside the
character and panics; `detect_search_mode` evaluates to `none` (= panic) in
the model instead of returning a `SearchMode`. -/
theorem c2_classifier_panics_on_multibyte :
    detect_search_mode ['é'] = none := by decide

/-- C7: the similarity scorer never produces NaN: every division it performs
has a nonzero divisor, witnessed by the NaN-tracking scorer returning `some`
of the plain score for all inputs and both flag values.  Consequently the
scores compared by the sort of `search_fuzzy` are genuine rational values and
its comparator (`score_ge`) is total, so the unwrap of `partial_cmp` cannot
fail. -/
theorem c7_scorer_never_nan (case_sensitive : Bool) (filename query : Str) :
    calculate_fuzzy_score_checked case_sensitive filename query
      = some (calculate_fuzzy_score case_sensitive filename query) := by
  simp only [calculate_fuzzy_score_checked, calculate_fuzzy_score]
  by_cases heq : fold_case case_sensitive filename = fold_case case_sensitive query
  · rw [if_pos heq, if_pos heq]
  · rw [if_neg heq, if_neg heq]
    by_cases hsub : str_contains (fold_case case_sensitive filename)
        (fold_case case_sensitive query) = true
    · rw [if_pos hsub, if_pos hsub]
      have hfl : fold_case case_sensitive filename ≠ [] := by
        intro h0
        rw [h0] at hsub heq
        have hq0 : fold_case case_sensitive query = [] := by
          simpa [str_contains, List.isEmpty_iff] using hsub
        exact heq hq0.symm
      have hb : ((byte_len (fold_case case_sensitive filename) : Nat) : ℚ) ≠ 0 :=
        Nat.cast_ne_zero.mpr (byte_len_pos hfl).ne'
      unfold div_checked
      rw [if_neg hb]
      rfl
    · rw [if_neg hsub, if_neg hsub]
      rw [levenshtein_score_checked_eq, subsequence_score_checked_eq,
        ngram_score_checked_eq]

/-- Auxiliary bound for the substring branch of the scorer. -/
theorem substring_branch_nonneg (a b : Nat) :
    (0 : ℚ) ≤ 0.9 - ((a : ℚ) - (b : ℚ)) / (a : ℚ) * 0.1 := by
  rcases Nat.eq_zero_or_pos a with h0 | h0
  · subst h0
    norm_num
  · have ha : (0 : ℚ) < a := by exact_mod_cast h0
    have hb : (0 : ℚ) ≤ b := Nat.cast_nonneg b
    have hx : ((a : ℚ) - b) / a ≤ 1 := by
      rw [div_le_one ha]
      linarith
    linarith

/-- C1 (amended): the fuzzy score is bounded below by 0 for every pair of
input strings and every flag (including empty strings), but it is not bounded
above by 1 (see the counterexample). -/
theorem c1_amended_score_nonneg (case_sensitive : Bool) (filename query : Str) :
    0 ≤ calculate_fuzzy_score case_sensitive filename query := by
  simp only [calculate_fuzzy_score]
  split_ifs with heq hsub hlow
  · norm_num
  · exact substring_branch_nonneg _ _
  · norm_num
  · have := not_lt.mp hlow
    linarith

/-- C1 counterexample: the claimed upper bound 1.0 fails.  For the filename
"aaaaaaaaaaaaba" and the query "aaaaaaaaaaaaa" the combined branch returns
11527/11375 > 1 (the consecutive-run bonus of the subsequence component makes
its coverage term exceed 1). -/
theorem c1_counterexample :
    1 < calculate_fuzzy_score true
      ['a','a','a','a','a','a','a','a','a','a','a','a','b','a']
      ['a','a','a','a','a','a','a','a','a','a','a','a','a'] := by
  norm_num +decide [calculate_fuzzy_score, fold_case, str_contains, starts_with_str,
    levenshtein_score, lev_distance, lev_loop, lev_row_go,
    subsequence_score, subseq_step, ngram_score, get_ngrams, byte_len, utf8_len,
    List.range_succ, List.getElem?_cons_zero, List.getElem?_cons_succ]

/-- C4 (amended): in the substring branch (folded filename strictly contains
the folded query), the score is 0.9 − (len(filename) − len(query)) /
len(filename) × 0.1 with lengths counted in UTF-8 BYTES (Rust `str::len`),
not in Unicode scalar values as the claim states. -/
theorem c4_amended_substring_formula_bytes (case_sensitive : Bool)
    (filename query : Str)
    (hne : fold_case case_sensitive filename ≠ fold_case case_sensitive query)
    (hsub : str_contains (fold_case case_sensitive filename)
      (fold_case case_sensitive query) = true) :
    calculate_fuzzy_score case_sensitive filename query =
      0.9 - ((byte_len (fold_case case_sensitive filename) : ℚ)
          - (byte_len (fold_case case_sensitive query) : ℚ))
        / (byte_len (fold_case case_sensitive filename) : ℚ) * 0.1 := by
  simp only [calculate_fuzzy_score]
  rw [if_neg hne, if_pos hsub]

/-- C4 counterexample: for the filename "éa" and the query "a"
(case-sensitive, so folding is the identity) the containment and inequality
conditions hold, yet the code returns 0.9 − (3−1)/3 × 0.1 = 5/6 (byte
lengths 3 and 1) while the claimed codepoint formula gives
0.9 − (2−1)/2 × 0.1 = 17/20. -/
theorem c4_counterexample :
    str_contains (fold_case true ['é','a']) (fold_case true ['a']) = true ∧
    fold_case true ['é','a'] ≠ fold_case true ['a'] ∧
    calculate_fuzzy_score true ['é','a'] ['a'] ≠
      substring_score_spec ['é','a'] ['a'] := by
  refine ⟨by decide, by decide, ?_⟩
  norm_num +decide [calculate_fuzzy_score, substring_score_spec, fold_case,
    str_contains, starts_with_str, byte_len, utf8_len]

theorem c4_witness :
    calculate_fuzzy_score true ['x','a','b'] ['a','b'] =
      0.9 - ((byte_len (fold_case true ['x','a','b']) : ℚ)
          - (byte_len (fold_case true ['a','b']) : ℚ))
        / (byte_len (fold_case true ['x','a','b']) : ℚ) * 0.1 :=
  c4_amended_substring_formula_bytes true ['x','a','b'] ['a','b']
    (by decide) (by decide)

/-- C5 (amended): when the external compiler rejects the pattern,
`search_regex` and `search_glob` return the error before touching any index
entry (the result is the same error for every index) and the error carries
the compiler diagnostic — but the pattern field holds the placeholder text
"<unknown pattern>" installed by the `From` conversions in error.rs, not the
offending pattern text as the claim states. -/
theorem c5_amended_pattern_error (rc : RegexCompiler) (gc : GlobCompiler)
    (case_sensitive : Bool) (index : Index) (pattern : Str) :
    (∀ e, rc ((if case_sensitive then [] else ("(?i)".toList)) ++ pattern) = .error e →
      search_regex rc case_sensitive index pattern =
        .error (.invalidRegex e ("<unknown pattern>".toList))) ∧
    (∀ e, gc (if case_sensitive then pattern else fold_case false pattern) = .error e →
      search_glob gc case_sensitive index pattern =
        .error (.invalidGlob e ("<unknown pattern>".toList))) := by
  constructor
  · intro e he
    simp only [search_regex]
    rw [he]
    rfl
  · intro e he
    simp only [search_glob]
    rw [he]
    rfl

/-- C5 counterexample: with a compiler stub whose diagnostic echoes the text
it was given, compiling the invalid pattern "[" yields an error whose
`pattern` field is the placeholder "<unknown pattern>", which differs from
the offending pattern text "[" — so the error does not carry the offending
pattern text. -/
theorem c5_counterexample :
    search_regex (fun p => .error ⟨p⟩) false [] ['['] =
      .error (.invalidRegex ⟨['(','?','i',')','[']⟩ ("<unknown pattern>".toList)) ∧
    ("<unknown pattern>".toList) ≠ ['['] := by
  exact ⟨rfl, by decide⟩

theorem c5_witness :
    search_regex (fun p => .error ⟨p⟩) true [] ['['] =
      .error (.invalidRegex ⟨['[']⟩ ("<unknown pattern>".toList)) :=
  (c5_amended_pattern_error (fun p => .error ⟨p⟩) (fun p => .error ⟨p⟩)
    true [] ['[']).1 ⟨['[']⟩ rfl

/-- C6 (amended): for each exact mode the result consists of all paths of
every matching filename and is sorted by Rust's `PathBuf` ordering
(lexicographic over path components, `path_le`) — not by lexicographic order
over the raw path strings as the claim states — and two indexes with
identical contents but different iteration orders yield identical output
lists. -/
theorem c6_exact_modes_sorted_complete (case_sensitive : Bool)
    (idx idx' : Index) (query : Str) (rc : RegexCompiler) (gc : GlobCompiler)
    (hperm : idx.Perm idx') :
    (search_substring case_sensitive idx query =
        search_substring case_sensitive idx' query ∧
      (search_substring case_sensitive idx query).Sorted path_le ∧
      ∀ p, p ∈ search_substring case_sensitive idx query ↔
        ∃ e ∈ idx, str_contains (fold_case case_sensitive e.1)
          (fold_case case_sensitive query) = true ∧ p ∈ e.2) ∧
    (search_regex rc case_sensitive idx query =
        search_regex rc case_sensitive idx' query ∧
      ∀ m res, rc ((if case_sensitive then [] else ("(?i)".toList)) ++ query) = .ok m →
        search_regex rc case_sensitive idx query = .ok res →
        res.Sorted path_le ∧ ∀ p, p ∈ res ↔ ∃ e ∈ idx, m e.1 = true ∧ p ∈ e.2) ∧
    (search_glob gc case_sensitive idx query =
        search_glob gc case_sensitive idx' query ∧
      ∀ m res, gc (if case_sensitive then query else fold_case false query) = .ok m →
        search_glob gc case_sensitive idx query = .ok res →
        res.Sorted path_le ∧ ∀ p, p ∈ res ↔ ∃ e ∈ idx,
          (if case_sensitive then m e.1 else m (fold_case false e.1)) = true ∧
            p ∈ e.2) := by
  refine ⟨⟨?_, ?_, ?_⟩, ⟨?_, ?_⟩, ⟨?_, ?_⟩⟩
  · exact sort_paths_eq_of_perm (collect_paths_perm _ hperm)
  · exact sort_paths_sorted _
  · intro p
    exact ((sort_paths_perm _).mem_iff).trans (mem_collect_paths _ idx p)
  · simp only [search_regex]
    cases h : rc ((if case_sensitive then [] else ("(?i)".toList)) ++ query) with
    | error e => rfl
    | ok m =>
        exact congrArg Except.ok (sort_paths_eq_of_perm (collect_paths_perm m hperm))
  · intro m res hok hres
    simp only [search_regex] at hres
    rw [hok] at hres
    have hres' : res = sort_paths (collect_paths m idx) :=
      (Except.ok.inj hres).symm
    subst hres'
    exact ⟨sort_paths_sorted _,
      fun p => ((sort_paths_perm _).mem_iff).trans (mem_collect_paths m idx p)⟩
  · simp only [search_glob]
    cases h : gc (if case_sensitive then query else fold_case false query) with
    | error e => rfl
    | ok m =>
        exact congrArg Except.ok (sort_paths_eq_of_perm (collect_paths_perm _ hperm))
  · intro m res hok hres
    simp only [search_glob] at hres
    rw [hok] at hres
    have hres' : res = sort_paths (collect_paths
        (fun filename => if case_sensitive then m filename
          else m (fold_case false filename)) idx) :=
      (Except.ok.inj hres).symm
    subst hres'
    exact ⟨sort_paths_sorted _,
      fun p => ((sort_paths_perm _).mem_iff).trans (mem_collect_paths _ idx p)⟩

/-- C6 counterexample: the output is NOT sorted by lexicographic order over
the path strings.  For the index mapping filename "f" to the two paths
"a.txt/f" and "a/b/f", `search_substring` returns ["a/b/f", "a.txt/f"]
(component order: "a" < "a.txt"), while string-lexicographic order would put
"a.txt/f" first ('.' < '/'). -/
theorem c6_counterexample :
    search_substring true
        [(['f'], [['a','.','t','x','t','/','f'], ['a','/','b','/','f']])] ['f'] =
      [['a','/','b','/','f'], ['a','.','t','x','t','/','f']] ∧
    ¬ string_lex_le_spec ['a','/','b','/','f'] ['a','.','t','x','t','/','f'] := by
  exact ⟨by decide, by decide⟩

theorem c6_witness :
    search_substring true [(['f'], [['b']]), (['g'], [['a']])] ['f'] =
      search_substring true [(['g'], [['a']]), (['f'], [['b']])] ['f'] :=
  ((c6_exact_modes_sorted_complete true
    [(['f'], [['b']]), (['g'], [['a']])]
    [(['g'], [['a']]), (['f'], [['b']])]
    ['f'] (fun _ => .error ⟨[]⟩) (fun _ => .error ⟨[]⟩)
    (List.Perm.swap (['g'], [['a']]) (['f'], [['b']]) [])).1).1

/-- C3 (amended): `search_fuzzy` is a deterministic function of the entry
sequence, and for two indexes with identical contents but different
iteration orders the outputs agree as multisets and are both sorted by
non-increasing score; but the order of equal-score entries follows the index
iteration order (the sort is stable and has no secondary key), not an
ascending lexicographic path order, so the exact output sequence depends on
the backing HashMap's iteration order (see the counterexample). -/
theorem c3_fuzzy_deterministic_up_to_ties (case_sensitive : Bool)
    (idx idx' : Index) (query : Str) (hperm : idx.Perm idx') :
    (search_fuzzy case_sensitive idx query).Perm
      (search_fuzzy case_sensitive idx' query) ∧
    (search_fuzzy case_sensitive idx query).Sorted score_ge :=
  ⟨(search_fuzzy_perm_collect case_sensitive idx query).trans
      ((collect_fuzzy_perm case_sensitive query hperm).trans
        (search_fuzzy_perm_collect case_sensitive idx' query).symm),
    search_fuzzy_sorted case_sensitive idx query⟩

/-- C3 counterexample: the two filenames "ab" and "ac" both score 17/20 for
the query "a"; permuting the two index entries permutes the output, so the
result sequence is not independent of the backing map's iteration order and
equal scores are not tie-broken by ascending path order ("z/ab" precedes
"b/ac" in the first run). -/
theorem c3_counterexample :
    ([(['a','b'], [['z','/','a','b']]), (['a','c'], [['b','/','a','c']])] : Index).Perm
      [(['a','c'], [['b','/','a','c']]), (['a','b'], [['z','/','a','b']])] ∧
    search_fuzzy true
        [(['a','b'], [['z','/','a','b']]), (['a','c'], [['b','/','a','c']])] ['a'] ≠
      search_fuzzy true
        [(['a','c'], [['b','/','a','c']]), (['a','b'], [['z','/','a','b']])] ['a'] := by
  constructor
  · exact List.Perm.swap (['a','c'], [['b','/','a','c']]) (['a','b'], [['z','/','a','b']]) []
  · have e1 : search_fuzzy true
        [(['a','b'], [['z','/','a','b']]), (['a','c'], [['b','/','a','c']])] ['a'] =
        [(['z','/','a','b'], (17/20 : ℚ)), (['b','/','a','c'], (17/20 : ℚ))] := by
      norm_num +decide [search_fuzzy, collect_fuzzy, calculate_fuzzy_score, fold_case,
        str_contains, starts_with_str, byte_len, utf8_len,
        List.insertionSort, List.orderedInsert, score_ge]
    have e2 : search_fuzzy true
        [(['a','c'], [['b','/','a','c']]), (['a','b'], [['z','/','a','b']])] ['a'] =
        [(['b','/','a','c'], (17/20 : ℚ)), (['z','/','a','b'], (17/20 : ℚ))] := by
      norm_num +decide [search_fuzzy, collect_fuzzy, calculate_fuzzy_score, fold_case,
        str_contains, starts_with_str, byte_len, utf8_len,
        List.insertionSort, List.orderedInsert, score_ge]
    rw [e1, e2]
    intro h
    have := congrArg (fun l => l.map Prod.fst) h
    simp at this

theorem c3_witness :
    (search_fuzzy true
        [(['a','b'], [['z','/','a','b']]), (['a','c'], [['b','/','a','c']])] ['a']).Perm
      (search_fuzzy true
        [(['a','c'], [['b','/','a','c']]), (['a','b'], [['z','/','a','b']])] ['a']) ∧
    (search_fuzzy true
        [(['a','b'], [['z','/','a','b']]), (['a','c'], [['b','/','a','c']])] ['a']).Sorted
      score_ge :=
  c3_fuzzy_deterministic_up_to_ties true
    [(['a','b'], [['z','/','a','b']]), (['a','c'], [['b','/','a','c']])]
    [(['a','c'], [['b','/','a','c']]), (['a','b'], [['z','/','a','b']])] ['a']
    (List.Perm.swap (['a','c'], [['b','/','a','c']]) (['a','b'], [['z','/','a','b']]) [])

/-- C8: every entry returned by `search_fuzzy` has a strictly positive score
(entries scoring 0 are skipped before collection), and the returned sequence
is sorted by non-increasing score. -/
theorem c8_fuzzy_positive_sorted (case_sensitive : Bool) (index : Index)
    (query : Str) :
    (∀ e ∈ search_fuzzy case_sensitive index query, 0 < e.2) ∧
    (search_fuzzy case_sensitive index query).Sorted score_ge :=
  ⟨fun e he => pos_of_mem_collect_fuzzy case_sensitive query index e
      ((search_fuzzy_perm_collect case_sensitive index query).mem_iff.mp he),
    search_fuzzy_sorted case_sensitive index query⟩

theorem c8_witness :
    0 < ((['z','/','a','b'], (17/20 : ℚ)) : FilePath' × ℚ).2 :=
  (c8_fuzzy_positive_sorted true [(['a','b'], [['z','/','a','b']])] ['a']).1
    (['z','/','a','b'], (17/20 : ℚ))
    (by
      have e : search_fuzzy true [(['a','b'], [['z','/','a','b']])] ['a'] =
          [(['z','/','a','b'], (17/20 : ℚ))] := by
        norm_num +decide [search_fuzzy, collect_fuzzy, calculate_fuzzy_score, fold_case,
          str_contains, starts_with_str, byte_len, utf8_len,
          List.insertionSort, List.orderedInsert, score_ge]
      rw [e]
      exact List.mem_singleton_self _)
